import Mathlib

/-!
Verification of the stockanalysisAI pipeline: a shallow embedding of the
Python sources (helpers.py, data_models.py, agents/news_retrieval.py,
agents/sentiment_analysis.py, database/vectordb.py, database/sql_handler.py)
together with proofs of the stated behavioural properties.

Python strings are modelled as lists of characters, floats as rationals,
dictionaries with optional keys as structures of Option fields, and code
that can raise as functions into Except.
-/

namespace StockAI

/-! ### Python string primitives -/

/-- A Python string, modelled as a list of characters. -/
abbrev PyStr := List Char

/-- Python str.lower (per character). -/
def lowerStr (s : PyStr) : PyStr := s.map Char.toLower

/-- Python str.upper (per character). -/
def upperStr (s : PyStr) : PyStr := s.map Char.toUpper

/-- Python str.strip: remove leading and trailing whitespace. -/
def pyStrip (s : PyStr) : PyStr :=
  ((s.dropWhile Char.isWhitespace).reverse.dropWhile Char.isWhitespace).reverse

/-- Does the string start with the given pattern? -/
def startsWithSub : PyStr → PyStr → Bool
  | _, [] => true
  | [], _ :: _ => false
  | c :: cs, k :: ks => c == k && startsWithSub cs ks

/-- Python substring test, kw in text. -/
def containsSub : PyStr → PyStr → Bool
  | [], kw => kw.isEmpty
  | c :: cs, kw => startsWithSub (c :: cs) kw || containsSub cs kw

/-- Python slice text[:n] for an arbitrary integer bound n:
a negative bound counts from the end, clamped at zero. -/
def pySliceTo (s : PyStr) (n : Int) : PyStr :=
  if n < 0 then s.take (s.length - n.natAbs) else s.take n.toNat

/-- Python sep.join for a list of strings. -/
def joinWith (sep : PyStr) : List PyStr → PyStr
  | [] => []
  | [s] => s
  | s :: rest => s ++ sep ++ joinWith sep rest

/-! ### helpers.py -/

/-- helpers.truncate_text: return the text unchanged when it fits,
otherwise cut to max_length - 3 characters and append an ellipsis. -/
def truncate_text (text : PyStr) (max_length : Int) : PyStr :=
  if (text.length : Int) ≤ max_length then text
  else pySliceTo text (max_length - 3) ++ ('.' :: '.' :: '.' :: [])

/-! ### data_models.py -/

/-- data_models.SentimentLabel. -/
inductive SentimentLabel where
  | POSITIVE
  | NEGATIVE
  | NEUTRAL
deriving DecidableEq, Repr

/-- The .value string of a SentimentLabel. -/
def SentimentLabel.value : SentimentLabel → PyStr
  | .POSITIVE => "positive".toList
  | .NEGATIVE => "negative".toList
  | .NEUTRAL => "neutral".toList

/-- The pydantic clean_text validator on NewsArticle fields:
strip the value when it is truthy, keep it otherwise. -/
def pydanticCleanText (v : Option PyStr) : Option PyStr :=
  match v with
  | some s => if s ≠ [] then some (pyStrip s) else some s
  | none => none

/-- data_models.NewsArticle (title, optional description and content,
url, publish timestamp, source). -/
structure NewsArticle where
  title : PyStr
  description : Option PyStr
  content : Option PyStr
  url : PyStr
  published_at : PyStr
  source : PyStr
deriving DecidableEq, Repr

/-- data_models.SentimentResult. The processing timestamp carries no
behavioural content for these properties and is omitted. -/
structure SentimentResult where
  article : NewsArticle
  sentiment_score : ℚ
  sentiment_label : SentimentLabel
  confidence : ℚ
  context_used : Bool
deriving DecidableEq, Repr

/-- Constructing a SentimentResult, applying the pydantic validators of
data_models.py: validate_score rejects a sentiment_score outside [-1, 1];
no other field is validated. -/
def mkSentimentResult (article : NewsArticle) (sentiment_score : ℚ)
    (sentiment_label : SentimentLabel) (confidence : ℚ) (context_used : Bool) :
    Except PyStr SentimentResult :=
  if -1 ≤ sentiment_score ∧ sentiment_score ≤ 1 then
    Except.ok ⟨article, sentiment_score, sentiment_label, confidence, context_used⟩
  else
    Except.error "Sentiment score must be between -1 and 1".toList

/-- data_models.AnalysisReport (the generated_at timestamp is omitted). -/
structure AnalysisReport where
  total_articles : ℤ
  positive_count : ℤ
  negative_count : ℤ
  neutral_count : ℤ
  average_sentiment : ℚ
  top_positive : List NewsArticle
  top_negative : List NewsArticle
deriving Repr

/-- AnalysisReport.positive_percentage. -/
def AnalysisReport.positive_percentage (r : AnalysisReport) : ℚ :=
  if 0 < r.total_articles then (r.positive_count : ℚ) / (r.total_articles : ℚ) * 100 else 0

/-- AnalysisReport.negative_percentage. -/
def AnalysisReport.negative_percentage (r : AnalysisReport) : ℚ :=
  if 0 < r.total_articles then (r.negative_count : ℚ) / (r.total_articles : ℚ) * 100 else 0

/-- AnalysisReport.neutral_percentage. -/
def AnalysisReport.neutral_percentage (r : AnalysisReport) : ℚ :=
  if 0 < r.total_articles then (r.neutral_count : ℚ) / (r.total_articles : ℚ) * 100 else 0

/-! ### helpers.calculate_sentiment_stats -/

/-- The dictionary returned by helpers.calculate_sentiment_stats,
modelled as an association list from key to numeric value. -/
abbrev StatsDict := List (PyStr × ℚ)

/-- helpers.calculate_sentiment_stats. On an empty result list it returns
the fixed six-key dictionary of zeros (note: without any percentage keys);
otherwise it returns counts, numpy means and guarded percentages. -/
def calculate_sentiment_stats (results : List SentimentResult) : StatsDict :=
  if results = [] then
    [("total".toList, 0), ("positive".toList, 0), ("negative".toList, 0),
     ("neutral".toList, 0), ("average_score".toList, 0), ("confidence_avg".toList, 0)]
  else
    let total : ℕ := results.length
    let positive : ℕ := (results.filter (fun r => r.sentiment_label.value = "positive".toList)).length
    let negative : ℕ := (results.filter (fun r => r.sentiment_label.value = "negative".toList)).length
    let neutral : ℕ := (results.filter (fun r => r.sentiment_label.value = "neutral".toList)).length
    let scores : List ℚ := results.map (·.sentiment_score)
    let confidences : List ℚ := results.map (·.confidence)
    [("total".toList, (total : ℚ)),
     ("positive".toList, (positive : ℚ)),
     ("negative".toList, (negative : ℚ)),
     ("neutral".toList, (neutral : ℚ)),
     ("average_score".toList, if scores ≠ [] then scores.sum / (scores.length : ℚ) else 0),
     ("confidence_avg".toList, if confidences ≠ [] then confidences.sum / (confidences.length : ℚ) else 0),
     ("positive_pct".toList, if 0 < total then (positive : ℚ) / (total : ℚ) * 100 else 0),
     ("negative_pct".toList, if 0 < total then (negative : ℚ) / (total : ℚ) * 100 else 0),
     ("neutral_pct".toList, if 0 < total then (neutral : ℚ) / (total : ℚ) * 100 else 0)]

/-! ### agents/news_retrieval.py -/

/-- A raw article dictionary as decoded from the news API JSON;
absent keys are none, and the code reads each with .get and a default. -/
structure RawArticle where
  title : Option PyStr
  description : Option PyStr
  content : Option PyStr
  url : Option PyStr
  publishedAt : Option PyStr
  sourceName : Option PyStr
deriving DecidableEq, Repr

/-- article.get with the empty-string default, as used for the URL
deduplication key. -/
def rawUrl (a : RawArticle) : PyStr := a.url.getD []

/-- The deduplication loop of get_indian_financial_news: walk the
collected list, keeping an article only when its URL has not been seen. -/
def dedupByUrl (seen : List PyStr) : List RawArticle → List RawArticle
  | [] => []
  | a :: rest =>
    if rawUrl a ∈ seen then dedupByUrl seen rest
    else a :: dedupByUrl (rawUrl a :: seen) rest

/-- Modelled from the spec wording for comparison: keep the first
occurrence of each URL, discarding every later article with the same URL. -/
def keepFirstByUrl : List RawArticle → List RawArticle
  | [] => []
  | a :: rest =>
    a :: keepFirstByUrl (rest.filter (fun b => rawUrl b ≠ rawUrl a))
termination_by l => l.length
decreasing_by
  simp only [List.length_cons]
  exact Nat.lt_succ_of_le (List.length_filter_le _ _)

/-- NewsAgent._is_valid_article: both title and url must be truthy. -/
def is_valid_article (a : RawArticle) : Bool :=
  a.title.getD [] ≠ [] && a.url.getD [] ≠ []

/-- Construction of a NewsArticle from a raw hit in
get_indian_financial_news, each field read with .get and the empty
default, then passed through the pydantic clean_text validator. -/
def toNewsArticle (a : RawArticle) : NewsArticle :=
  { title := (pydanticCleanText (some (a.title.getD []))).getD []
    description := pydanticCleanText (some (a.description.getD []))
    content := pydanticCleanText (some (a.content.getD []))
    url := a.url.getD []
    published_at := a.publishedAt.getD []
    source := a.sourceName.getD [] }

/-- The lowercased title-plus-description text that
_is_financially_relevant scans for keywords. -/
def relevanceText (article : NewsArticle) : PyStr :=
  lowerStr (article.title ++ (' ' :: article.description.getD []))

/-- The financial keyword list of _is_financially_relevant. -/
def financial_indicators : List PyStr :=
  ["stock", "market", "shares", "trading", "finance", "investment",
   "economy", "rupee", "bank", "bse", "nse", "sensex", "nifty",
   "earnings", "profit", "revenue", "ipo", "dividend"].map String.toList

/-- The Indian-context keyword list of _is_financially_relevant. -/
def indian_indicators : List PyStr :=
  ["india", "indian", "mumbai", "delhi", "bangalore", "rbi",
   "reserve bank", "tata", "reliance", "infosys", "hdfc",
   "adani", "icici", "wipro", "bharti"].map String.toList

/-- The strong Indian-market keyword list of _is_financially_relevant. -/
def strong_market_keywords : List PyStr :=
  ["sensex", "nifty", "bse", "nse", "indian stock market"].map String.toList

/-- NewsAgent._is_financially_relevant: accept when the text has a
financial keyword and an Indian-context keyword, or a strong market
keyword. -/
def is_financially_relevant (article : NewsArticle) : Bool :=
  let text := relevanceText article
  let has_financial := financial_indicators.any (fun kw => containsSub text kw)
  let has_indian_context := indian_indicators.any (fun kw => containsSub text kw)
  let strong_indian_market := strong_market_keywords.any (fun kw => containsSub text (lowerStr kw))
  (has_financial && has_indian_context) || strong_indian_market

/-- One news API response per query: either the decoded articles list or
a raised exception. -/
abbrev QueryResponse := Except PyStr (List RawArticle)

/-- The query loop of get_indian_financial_news: extend the collection
with the hits of each successful query; a failing query is skipped. -/
def gatherArticles : List QueryResponse → List RawArticle
  | [] => []
  | Except.ok articles :: rest => articles ++ gatherArticles rest
  | Except.error _ :: rest => gatherArticles rest

/-- NewsAgent.get_indian_financial_news over the per-query responses:
gather, deduplicate by URL, validate, convert and filter. The pydantic
constructor cannot raise, so the inner try around it never fires. -/
def get_indian_financial_news (responses : List QueryResponse) : List NewsArticle :=
  let all_articles := gatherArticles responses
  let unique_articles := dedupByUrl [] all_articles
  (unique_articles.filter is_valid_article).filterMap (fun a =>
    let na := toNewsArticle a
    if is_financially_relevant na then some na else none)

/-! ### database/vectordb.py -/

/-- The metadata dictionary of a vector match; every key is optional. -/
structure VectorMetadata where
  sentiment_label : Option PyStr
deriving Repr

/-- One match returned by the vector index query. -/
structure VectorMatch where
  score : Option ℚ
  metadata : Option VectorMetadata

/-- The external vector index, modelled by its query oracle giving the
matches for an embedding and a top_k. -/
structure VectorIndex where
  query : List ℚ → ℕ → List VectorMatch

/-- Vectordb: the Pinecone index and the embedding model are both
nullable; setup failure leaves them none. -/
structure Vectordb where
  index : Option VectorIndex
  embedding_model : Option (PyStr → List ℚ)

/-- Vectordb.get_similar_context: empty string when the store is
disabled; otherwise embed the query, collect the matches above the
threshold and join their sentiment summaries with spaces. -/
def get_similar_context (db : Vectordb) (text : PyStr) (top_k : ℕ)
    (similarity_threshold : ℚ) : PyStr :=
  match db.index, db.embedding_model with
  | some idx, some em =>
    let query_embedding := em text
    let results := idx.query query_embedding top_k
    let contexts := results.filterMap (fun m =>
      if similarity_threshold < m.score.getD 0 then
        some ("Similar news was ".toList ++
          ((m.metadata.getD ⟨none⟩).sentiment_label.getD "neutral".toList))
      else none)
    if contexts ≠ [] then joinWith (' ' :: []) contexts else []
  | _, _ => []

/-- Vectordb.store_article: False when the store is disabled; the
external upsert of the enabled path is modelled as succeeding. -/
def store_article (db : Vectordb) (_result : SentimentResult) : Bool :=
  match db.index, db.embedding_model with
  | some _, some _ => true
  | _, _ => false

/-! ### agents/sentiment_analysis.py -/

/-- The dictionary produced by the sentiment classifier for one text;
_standardize_sentiment reads label and score with .get defaults. -/
structure ClassifierOutput where
  label : Option PyStr
  score : Option ℚ
deriving Repr

/-- SentimentAnalysisAgent._standardize_sentiment: uppercase the label,
map POSITIVE/POS to (score, positive), NEGATIVE/NEG to (-score,
negative) and anything else to (0, neutral). -/
def standardize_sentiment (sentiment_result : ClassifierOutput) : ℚ × SentimentLabel :=
  let label := upperStr (sentiment_result.label.getD [])
  let score := sentiment_result.score.getD 0
  if label = "POSITIVE".toList ∨ label = "POS".toList then
    (score, SentimentLabel.POSITIVE)
  else if label = "NEGATIVE".toList ∨ label = "NEG".toList then
    (-score, SentimentLabel.NEGATIVE)
  else
    (0, SentimentLabel.NEUTRAL)

/-- SentimentAnalysisAgent: the vector store, the classifier (modelled
as an oracle that may raise) and the configured similarity threshold. -/
structure SentimentAgent where
  vector_store : Vectordb
  sentiment_model : PyStr → Except PyStr ClassifierOutput
  similarity_threshold : ℚ

/-- The text prepared from an article for analysis:
title and description concatenated, then stripped. -/
def articleText (article : NewsArticle) : PyStr :=
  pyStrip (article.title ++ (' ' :: article.description.getD []))

/-- The enhanced text handed to the classifier: the article text with
the similarity context appended when nonempty, truncated to 512. -/
def enhancedText (text context : PyStr) : PyStr :=
  truncate_text (if context ≠ [] then text ++ ". Context: ".toList ++ context else text) 512

/-- SentimentAnalysisAgent.analyze_single_article: raise on empty text,
fetch the similarity context, classify the enhanced text, standardize,
and build the SentimentResult through the pydantic validators. -/
def analyze_single_article (ag : SentimentAgent) (article : NewsArticle) :
    Except PyStr SentimentResult :=
  let text := articleText article
  if text = [] then Except.error "No text content to analyze".toList
  else
    let context := get_similar_context ag.vector_store text 3 ag.similarity_threshold
    match ag.sentiment_model (enhancedText text context) with
    | Except.error e => Except.error e
    | Except.ok sentiment_result =>
      let p := standardize_sentiment sentiment_result
      mkSentimentResult article p.1 p.2 (sentiment_result.score.getD 0) (context ≠ [])

/-- SentimentAnalysisAgent.analyze_articles: per-article loop; a raised
exception is caught and that article skipped. -/
def analyze_articles (ag : SentimentAgent) : List NewsArticle → List SentimentResult
  | [] => []
  | article :: rest =>
    match analyze_single_article ag article with
    | Except.ok r => r :: analyze_articles ag rest
    | Except.error _ => analyze_articles ag rest

/-! ### database/sql_handler.py -/

/-- One row of the news_cache table (the autoincrement id and the
processed_at default timestamp are omitted). -/
structure CacheRow where
  title : PyStr
  content : Option PyStr
  url : PyStr
  published_at : PyStr
  source : PyStr
  sentiment : ℚ
  sentiment_label : PyStr
  confidence : ℚ
  context_used : Bool
deriving DecidableEq, Repr

/-- The row written for a SentimentResult by cache_analysis. -/
def rowOf (result : SentimentResult) : CacheRow :=
  { title := result.article.title
    content := result.article.description
    url := result.article.url
    published_at := result.article.published_at
    source := result.article.source
    sentiment := result.sentiment_score
    sentiment_label := result.sentiment_label.value
    confidence := result.confidence
    context_used := result.context_used }

/-- SQLHandler.cache_analysis on the news_cache table state: INSERT OR
REPLACE under the UNIQUE title constraint deletes any row with the same
title and inserts the new row. -/
def cache_analysis (table : List CacheRow) (result : SentimentResult) : List CacheRow :=
  table.filter (fun row => row.title ≠ result.article.title) ++ [rowOf result]

/-- Number of rows of the table carrying the given title. -/
def countTitle (table : List CacheRow) (t : PyStr) : ℕ :=
  (table.filter (fun row => row.title = t)).length

/-! ### Theorems -/

/-- Helper: a truncation with a bound of at least 3 never exceeds the bound. -/
theorem truncate_text_length_le (text : PyStr) (max_length : Int) (h : 3 ≤ max_length) :
    ((truncate_text text max_length).length : Int) ≤ max_length := by
  unfold truncate_text
  split
  · next hle => exact hle
  · next hgt =>
    unfold pySliceTo
    rw [if_neg (by omega)]
    simp only [List.length_append, List.length_take, List.length_cons, List.length_nil]
    push_cast
    omega

/-- C1 (counterexample): a classifier output labelled POSITIVE with score
0.0 is mapped to the pair (0, POSITIVE), so label POSITIVE does not imply
a strictly positive sentiment_score. -/
theorem standardize_sentiment_zero_score_cex :
    (standardize_sentiment ⟨some "POSITIVE".toList, some 0⟩).2 = SentimentLabel.POSITIVE ∧
    ¬ 0 < (standardize_sentiment ⟨some "POSITIVE".toList, some 0⟩).1 :=
  ⟨rfl, by show ¬ (0:ℚ) < 0; norm_num⟩

/-- C1 (amended): _standardize_sentiment maps label NEUTRAL to
sentiment_score = 0 unconditionally, and for every classifier output
whose score is strictly positive it is sign-consistent: label POSITIVE
gives sentiment_score > 0 and NEGATIVE gives sentiment_score < 0. -/
theorem standardize_sentiment_sign_consistent (r : ClassifierOutput) :
    ((standardize_sentiment r).2 = SentimentLabel.NEUTRAL →
      (standardize_sentiment r).1 = 0) ∧
    (0 < r.score.getD 0 →
      ((standardize_sentiment r).2 = SentimentLabel.POSITIVE →
        0 < (standardize_sentiment r).1) ∧
      ((standardize_sentiment r).2 = SentimentLabel.NEGATIVE →
        (standardize_sentiment r).1 < 0)) := by
  simp only [standardize_sentiment]
  split
  · exact ⟨by simp, fun h => ⟨fun _ => h, by simp⟩⟩
  · split
    · exact ⟨by simp, fun h => ⟨by simp, fun _ => neg_lt_zero.mpr h⟩⟩
    · exact ⟨fun _ => rfl, fun _ => ⟨by simp, by simp⟩⟩

/-- C1 (witness): the sign-consistency theorem applied to a concrete
NEGATIVE output with score 1, discharging the positive-score hypothesis
of the strict conjuncts there. -/
theorem standardize_sentiment_sign_consistent_witness :
    ((standardize_sentiment ⟨some "NEGATIVE".toList, some 1⟩).2 = SentimentLabel.NEUTRAL →
      (standardize_sentiment ⟨some "NEGATIVE".toList, some 1⟩).1 = 0) ∧
    ((standardize_sentiment ⟨some "NEGATIVE".toList, some 1⟩).2 = SentimentLabel.POSITIVE →
      0 < (standardize_sentiment ⟨some "NEGATIVE".toList, some 1⟩).1) ∧
    ((standardize_sentiment ⟨some "NEGATIVE".toList, some 1⟩).2 = SentimentLabel.NEGATIVE →
      (standardize_sentiment ⟨some "NEGATIVE".toList, some 1⟩).1 < 0) :=
  ⟨(standardize_sentiment_sign_consistent ⟨some "NEGATIVE".toList, some 1⟩).1,
   ((standardize_sentiment_sign_consistent ⟨some "NEGATIVE".toList, some 1⟩).2
     (by show (0:ℚ) < 1; norm_num)).1,
   ((standardize_sentiment_sign_consistent ⟨some "NEGATIVE".toList, some 1⟩).2
     (by show (0:ℚ) < 1; norm_num)).2⟩

/-- C8 (counterexample): a SentimentResult with confidence 2, outside
[0, 1], is accepted by the constructor, so out-of-range confidence is not
rejected. -/
theorem sentiment_result_confidence_not_validated_cex :
    (1 : ℚ) < 2 ∧
    (mkSentimentResult ⟨"t".toList, none, none, "u".toList, [], []⟩
      1 SentimentLabel.POSITIVE 2 false).isOk = true :=
  ⟨by norm_num, by decide⟩

/-- C8 (amended): constructing a SentimentResult succeeds exactly when
the sentiment_score lies in [-1, 1]; the confidence field is not
validated, so any confidence value is accepted. -/
theorem mkSentimentResult_validates_only_score (a : NewsArticle) (s c : ℚ)
    (lab : SentimentLabel) (u : Bool) :
    (mkSentimentResult a s lab c u).isOk = true ↔ (-1 ≤ s ∧ s ≤ 1) := by
  unfold mkSentimentResult
  split
  · next hin => exact iff_of_true rfl hin
  · next hout => exact iff_of_false (by simp [Except.isOk, Except.toBool]) hout

/-- C9 (counterexample): with max_length = 0 the truncation of "abcd"
has length 4, so the output bound fails for bounds below 3. -/
theorem truncate_text_small_bound_cex :
    ¬ ((truncate_text "abcd".toList 0).length : Int) ≤ 0 := by
  decide

/-- C9 (amended): a text that already fits is returned unchanged for
every bound; for every bound of at least 3 the truncation has length at
most the bound; and the enhanced text handed to the sentiment classifier
has length at most 512. -/
theorem truncate_text_bounds (text : PyStr) (max_length : Int) :
    ((text.length : Int) ≤ max_length → truncate_text text max_length = text) ∧
    (3 ≤ max_length → ((truncate_text text max_length).length : Int) ≤ max_length) ∧
    (∀ t context : PyStr, (enhancedText t context).length ≤ 512) := by
  refine ⟨?_, fun h => truncate_text_length_le text max_length h, ?_⟩
  · intro hle
    unfold truncate_text
    rw [if_pos hle]
  · intro t context
    have := truncate_text_length_le
      (if context ≠ [] then t ++ ". Context: ".toList ++ context else t) 512 (by norm_num)
    unfold enhancedText
    omega

/-- C9 (witness): the bounds theorem applied to concrete texts, with the
unchanged case at bound 7 (where "ab" fits), the length bound at 5, and
the classifier input at a concrete text and empty context. -/
theorem truncate_text_bounds_witness :
    truncate_text "ab".toList 7 = "ab".toList ∧
    ((truncate_text "abcdefgh".toList 5).length : Int) ≤ 5 ∧
    (enhancedText "hi".toList []).length ≤ 512 :=
  ⟨(truncate_text_bounds "ab".toList 7).1 (by decide),
   (truncate_text_bounds "abcdefgh".toList 5).2.1 (by decide),
   (truncate_text_bounds "abcdefgh".toList 5).2.2 "hi".toList []⟩

/-- C10 (counterexample): on an empty result list the statistics
dictionary carries no positive_pct key at all, while on a one-element
positive list the key is present with value 100; so the empty case does
not return zero percentages. -/
theorem calculate_sentiment_stats_empty_no_pct_cex :
    (calculate_sentiment_stats []).map Prod.fst =
      ["total".toList, "positive".toList, "negative".toList, "neutral".toList,
       "average_score".toList, "confidence_avg".toList] ∧
    (calculate_sentiment_stats []).lookup "positive_pct".toList = none ∧
    "positive_pct".toList ∈ (calculate_sentiment_stats
      [⟨⟨"t".toList, none, none, "u".toList, [], []⟩, 1,
        SentimentLabel.POSITIVE, 1, false⟩]).map Prod.fst :=
  ⟨rfl, rfl, by decide⟩

/-- C10 (amended): the digest aggregation never divides by zero: a report
with zero total articles has all three percentage properties equal to 0,
and calculate_sentiment_stats on an empty list returns the fixed six-key
all-zero dictionary (counts and averages; the percentage keys appear only
in the non-empty case) rather than raising. -/
theorem digest_zero_division_safe (r : AnalysisReport) (h : r.total_articles = 0) :
    r.positive_percentage = 0 ∧ r.negative_percentage = 0 ∧ r.neutral_percentage = 0 ∧
    calculate_sentiment_stats [] =
      [("total".toList, 0), ("positive".toList, 0), ("negative".toList, 0),
       ("neutral".toList, 0), ("average_score".toList, 0), ("confidence_avg".toList, 0)] := by
  refine ⟨?_, ?_, ?_, rfl⟩ <;>
    simp [AnalysisReport.positive_percentage, AnalysisReport.negative_percentage,
      AnalysisReport.neutral_percentage, h]

/-- C10 (witness): the zero-division safety theorem applied to the empty
report. -/
theorem digest_zero_division_safe_witness :
    (AnalysisReport.mk 0 0 0 0 0 [] []).positive_percentage = 0 ∧
    (AnalysisReport.mk 0 0 0 0 0 [] []).negative_percentage = 0 ∧
    (AnalysisReport.mk 0 0 0 0 0 [] []).neutral_percentage = 0 ∧
    calculate_sentiment_stats [] =
      [("total".toList, 0), ("positive".toList, 0), ("negative".toList, 0),
       ("neutral".toList, 0), ("average_score".toList, 0), ("confidence_avg".toList, 0)] :=
  digest_zero_division_safe (AnalysisReport.mk 0 0 0 0 0 [] []) rfl

/-- C2: the relevance filter accepts exactly when the lowercased
title-plus-description contains both a financial keyword and an
Indian-context keyword, or contains a strong market keyword; an article
titled only SENSEX passes although it contains no Indian-context keyword,
and an article titled only profit (a non-strong financial keyword, no
Indian context) is rejected. -/
theorem is_financially_relevant_characterization :
    (∀ a : NewsArticle, is_financially_relevant a = true ↔
      (((∃ kw ∈ financial_indicators, containsSub (relevanceText a) kw = true) ∧
        (∃ kw ∈ indian_indicators, containsSub (relevanceText a) kw = true)) ∨
       (∃ kw ∈ strong_market_keywords, containsSub (relevanceText a) (lowerStr kw) = true))) ∧
    is_financially_relevant ⟨"SENSEX".toList, some [], none, "u".toList, [], []⟩ = true ∧
    indian_indicators.all
      (fun kw => !containsSub
        (relevanceText ⟨"SENSEX".toList, some [], none, "u".toList, [], []⟩) kw) = true ∧
    is_financially_relevant ⟨"profit".toList, some [], none, "u".toList, [], []⟩ = false := by
  refine ⟨?_, by decide, by decide, by decide⟩
  intro a
  simp [is_financially_relevant, List.any_eq_true]

/-- Helper: a disabled vector store returns the empty context string. -/
theorem get_similar_context_disabled (db : Vectordb)
    (h : db.index = none ∨ db.embedding_model = none)
    (text : PyStr) (k : ℕ) (t : ℚ) :
    get_similar_context db text k t = [] := by
  obtain ⟨i, e⟩ := db
  have h' : i = none ∨ e = none := h
  rcases h' with rfl | rfl
  · rfl
  · cases i <;> rfl

/-- Helper: a disabled vector store refuses to store. -/
theorem store_article_disabled (db : Vectordb)
    (h : db.index = none ∨ db.embedding_model = none) (r : SentimentResult) :
    store_article db r = false := by
  obtain ⟨i, e⟩ := db
  have h' : i = none ∨ e = none := h
  rcases h' with rfl | rfl
  · rfl
  · cases i <;> rfl

/-- Helper: with a disabled vector store, every successfully analyzed
article carries context_used = false. -/
theorem analyze_single_article_disabled_context (db : Vectordb)
    (h : db.index = none ∨ db.embedding_model = none) (ag : SentimentAgent)
    (hag : ag.vector_store = db) (a : NewsArticle) (r : SentimentResult)
    (hr : analyze_single_article ag a = Except.ok r) : r.context_used = false := by
  simp only [analyze_single_article] at hr
  split at hr
  · exact absurd hr (by simp)
  · rw [hag, get_similar_context_disabled db h (articleText a) 3 ag.similarity_threshold] at hr
    cases hm : ag.sentiment_model (enhancedText (articleText a) []) with
    | error e =>
      simp only [hm] at hr
      exact absurd hr (by simp)
    | ok out =>
      simp only [hm, mkSentimentResult] at hr
      split at hr
      · injection hr with hr
        subst hr
        rfl
      · exact absurd hr (by simp)

/-- C4: whenever the vector store is disabled (index or embedding model
is none), get_similar_context returns the empty string for every query,
store_article returns false for every result, and every SentimentResult
produced by analyze_single_article has context_used = false. -/
theorem vector_store_disabled_degrades (db : Vectordb)
    (h : db.index = none ∨ db.embedding_model = none) :
    (∀ (text : PyStr) (k : ℕ) (t : ℚ), get_similar_context db text k t = []) ∧
    (∀ r : SentimentResult, store_article db r = false) ∧
    (∀ ag : SentimentAgent, ag.vector_store = db →
      ∀ (a : NewsArticle) (r : SentimentResult),
        analyze_single_article ag a = Except.ok r → r.context_used = false) :=
  ⟨fun text k t => get_similar_context_disabled db h text k t,
   fun r => store_article_disabled db h r,
   fun ag hag a r hr => analyze_single_article_disabled_context db h ag hag a r hr⟩

/-- C4 (witness): the degradation theorem applied to the fully disabled
store, a concrete agent and a concrete article. -/
theorem vector_store_disabled_degrades_witness :
    get_similar_context ⟨none, none⟩ "x".toList 3 0 = [] ∧
    store_article ⟨none, none⟩
      ⟨⟨"t".toList, none, none, "u".toList, [], []⟩, 1,
        SentimentLabel.POSITIVE, 1, false⟩ = false ∧
    (⟨⟨"t".toList, none, none, "u".toList, [], []⟩, 1,
        SentimentLabel.POSITIVE, 1, false⟩ : SentimentResult).context_used = false :=
  ⟨(vector_store_disabled_degrades ⟨none, none⟩ (Or.inl rfl)).1 "x".toList 3 0,
   (vector_store_disabled_degrades ⟨none, none⟩ (Or.inl rfl)).2.1 _,
   (vector_store_disabled_degrades ⟨none, none⟩ (Or.inl rfl)).2.2
     ⟨⟨none, none⟩, fun _ => Except.ok ⟨some "POSITIVE".toList, some 1⟩, 0⟩ rfl
     ⟨"t".toList, none, none, "u".toList, [], []⟩ _ rfl⟩

/-- Helper: dropping the failed queries does not change the collected
article list. -/
theorem gatherArticles_filter_isOk (responses : List QueryResponse) :
    gatherArticles (responses.filter (fun r => r.isOk)) = gatherArticles responses := by
  induction responses with
  | nil => rfl
  | cons r rest ih =>
    cases r with
    | ok arts =>
      show gatherArticles (Except.ok arts :: rest.filter (fun r => r.isOk))
        = gatherArticles (Except.ok arts :: rest)
      simp only [gatherArticles]
      rw [ih]
    | error e =>
      show gatherArticles (rest.filter (fun r => r.isOk))
        = gatherArticles (Except.error e :: rest)
      rw [ih]
      rfl

/-- Helper: when every query fails, nothing is collected. -/
theorem gatherArticles_all_errors (responses : List QueryResponse)
    (h : ∀ r ∈ responses, r.isOk = false) : gatherArticles responses = [] := by
  induction responses with
  | nil => rfl
  | cons r rest ih =>
    cases r with
    | ok arts =>
      have := h _ (List.mem_cons_self _ _)
      simp [Except.isOk, Except.toBool] at this
    | error e =>
      simpa [gatherArticles] using ih (fun x hx => h x (List.mem_cons_of_mem _ hx))

/-- C5: get_indian_financial_news never propagates a query failure: the
result only depends on the successful query responses (failed queries are
skipped and the loop continues), and when every query fails, or there are
no responses at all, the function returns the empty list. -/
theorem get_indian_financial_news_swallows_failures (responses : List QueryResponse) :
    get_indian_financial_news responses
      = get_indian_financial_news (responses.filter (fun r => r.isOk)) ∧
    ((∀ r ∈ responses, r.isOk = false) → get_indian_financial_news responses = []) ∧
    get_indian_financial_news [] = [] := by
  refine ⟨?_, ?_, rfl⟩
  · unfold get_indian_financial_news
    rw [gatherArticles_filter_isOk]
  · intro h
    unfold get_indian_financial_news
    rw [gatherArticles_all_errors responses h]
    rfl

/-- C5 (witness): the failure-swallowing theorem applied to a single
failing query. -/
theorem get_indian_financial_news_swallows_failures_witness :
    get_indian_financial_news [Except.error "boom".toList] = [] :=
  (get_indian_financial_news_swallows_failures [Except.error "boom".toList]).2.1 (by decide)

/-- Helper: the analysis loop returns exactly the successful results, in
input order. -/
theorem analyze_articles_eq_filterMap (ag : SentimentAgent) (articles : List NewsArticle) :
    analyze_articles ag articles
      = articles.filterMap (fun a => (analyze_single_article ag a).toOption) := by
  induction articles with
  | nil => rfl
  | cons a rest ih =>
    simp only [analyze_articles, List.filterMap_cons]
    cases h : analyze_single_article ag a <;> simp [h, ih, Except.toOption]

/-- C6: analyze_articles skips every article whose analysis raises
(returning exactly the successful results in input order), and in
particular an article with empty title and description, whose analysis
raises a ValueError, is skipped while the rest of the batch continues. -/
theorem analyze_articles_skips_failures (ag : SentimentAgent) (articles : List NewsArticle) :
    analyze_articles ag articles
      = articles.filterMap (fun a => (analyze_single_article ag a).toOption) ∧
    analyze_articles ag ((⟨[], some [], none, "u".toList, [], []⟩ : NewsArticle) :: articles)
      = analyze_articles ag articles ∧
    analyze_single_article ag ⟨[], some [], none, "u".toList, [], []⟩
      = Except.error "No text content to analyze".toList :=
  ⟨analyze_articles_eq_filterMap ag articles, rfl, rfl⟩

/-- Helper: after an upsert, the written title occurs in exactly one row. -/
theorem countTitle_cache_self (table : List CacheRow) (r : SentimentResult) :
    countTitle (cache_analysis table r) r.article.title = 1 := by
  unfold countTitle cache_analysis
  rw [List.filter_append]
  have h1 : List.filter (fun row => decide (row.title = r.article.title))
      (List.filter (fun row => decide (row.title ≠ r.article.title)) table) = [] := by
    rw [List.filter_eq_nil_iff]
    intro row hrow
    rw [List.mem_filter] at hrow
    simpa using of_decide_eq_true hrow.2
  rw [h1]
  simp [rowOf]

/-- Helper: an upsert does not increase the row count of any other title. -/
theorem countTitle_cache_other (table : List CacheRow) (r : SentimentResult)
    (t : PyStr) (h : t ≠ r.article.title) :
    countTitle (cache_analysis table r) t ≤ countTitle table t := by
  unfold countTitle cache_analysis
  rw [List.filter_append, List.length_append]
  have h2 : List.filter (fun row => decide (row.title = t)) [rowOf r] = [] := by
    simp only [List.filter, rowOf]
    rw [decide_eq_false (fun hh => h hh.symm)]
  rw [h2]
  simp only [List.length_nil, Nat.add_zero]
  exact List.Sublist.length_le ((List.filter_sublist table).filter _)

/-- Helper: an upsert preserves the at-most-one-row-per-title invariant. -/
theorem countTitle_cache_le_one (table : List CacheRow) (r : SentimentResult)
    (t : PyStr) (h : countTitle table t ≤ 1) :
    countTitle (cache_analysis table r) t ≤ 1 := by
  by_cases ht : t = r.article.title
  · subst ht
    exact le_of_eq (countTitle_cache_self table r)
  · exact le_trans (countTitle_cache_other table r t ht) h

/-- Helper: a whole sequence of upserts preserves the invariant. -/
theorem countTitle_foldl_le_one (results : List SentimentResult) :
    ∀ table : List CacheRow, (∀ t, countTitle table t ≤ 1) →
      ∀ t, countTitle (results.foldl cache_analysis table) t ≤ 1 := by
  induction results with
  | nil => exact fun table h t => h t
  | cons r rest ih =>
    intro table h t
    simp only [List.foldl_cons]
    exact ih (cache_analysis table r)
      (fun s => countTitle_cache_le_one table r s (h s)) t

/-- C7: cache_analysis is an upsert keyed by title: on a table where
every title occurs in at most one row, any sequence of cache_analysis
calls keeps every title in at most one row, and right after caching a
result its title occurs in exactly one row (the old row was replaced,
not duplicated). -/
theorem cache_analysis_idempotent_upsert (table : List CacheRow)
    (results : List SentimentResult) (h : ∀ t, countTitle table t ≤ 1) :
    (∀ t, countTitle (results.foldl cache_analysis table) t ≤ 1) ∧
    (∀ r : SentimentResult, countTitle (cache_analysis table r) r.article.title = 1) :=
  ⟨countTitle_foldl_le_one results table h, fun r => countTitle_cache_self table r⟩

/-- C7 (witness): the upsert theorem applied to the empty table and two
results sharing the title t. -/
theorem cache_analysis_idempotent_upsert_witness :
    countTitle (List.foldl cache_analysis []
      [⟨⟨"t".toList, none, none, "u".toList, [], []⟩, 1, SentimentLabel.POSITIVE, 1, false⟩,
       ⟨⟨"t".toList, none, none, "u".toList, [], []⟩, 0, SentimentLabel.NEUTRAL, 1, true⟩])
      "t".toList ≤ 1 ∧
    countTitle (cache_analysis []
      ⟨⟨"t".toList, none, none, "u".toList, [], []⟩, 1, SentimentLabel.POSITIVE, 1, false⟩)
      "t".toList = 1 :=
  ⟨(cache_analysis_idempotent_upsert []
      [⟨⟨"t".toList, none, none, "u".toList, [], []⟩, 1, SentimentLabel.POSITIVE, 1, false⟩,
       ⟨⟨"t".toList, none, none, "u".toList, [], []⟩, 0, SentimentLabel.NEUTRAL, 1, true⟩]
      (fun _ => Nat.zero_le 1)).1 "t".toList,
   (cache_analysis_idempotent_upsert []
      [⟨⟨"t".toList, none, none, "u".toList, [], []⟩, 1, SentimentLabel.POSITIVE, 1, false⟩,
       ⟨⟨"t".toList, none, none, "u".toList, [], []⟩, 0, SentimentLabel.NEUTRAL, 1, true⟩]
      (fun _ => Nat.zero_le 1)).2
      ⟨⟨"t".toList, none, none, "u".toList, [], []⟩, 1, SentimentLabel.POSITIVE, 1, false⟩⟩

/-- Helper: the seen-set deduplication loop equals the keep-first
formulation on the articles whose URL is not yet seen. -/
theorem dedupByUrl_eq_keepFirst :
    ∀ (l : List RawArticle) (seen : List PyStr),
      dedupByUrl seen l
        = keepFirstByUrl (l.filter (fun a => decide (rawUrl a ∉ seen))) := by
  intro l
  induction l with
  | nil => intro seen; simp [dedupByUrl, keepFirstByUrl]
  | cons a rest ih =>
    intro seen
    by_cases hm : rawUrl a ∈ seen
    · simp only [dedupByUrl, if_pos hm]
      rw [List.filter_cons, if_neg (by simp [hm])]
      exact ih seen
    · simp only [dedupByUrl, if_neg hm]
      rw [List.filter_cons, if_pos (by simp [hm]), keepFirstByUrl]
      congr 1
      rw [ih (rawUrl a :: seen), List.filter_filter]
      congr 1
      apply List.filter_congr
      intro b _
      by_cases h1 : rawUrl b = rawUrl a <;> by_cases h2 : rawUrl b ∈ seen <;>
        simp [h1, h2]

/-- Helper: the URLs of the deduplicated output are pairwise distinct
and disjoint from the seen set. -/
theorem dedupByUrl_urls_nodup :
    ∀ (l : List RawArticle) (seen : List PyStr),
      ((dedupByUrl seen l).map rawUrl).Nodup ∧
      ∀ u ∈ (dedupByUrl seen l).map rawUrl, u ∉ seen := by
  intro l
  induction l with
  | nil => intro seen; simp [dedupByUrl]
  | cons a rest ih =>
    intro seen
    by_cases hm : rawUrl a ∈ seen
    · simp only [dedupByUrl, if_pos hm]
      exact ih seen
    · simp only [dedupByUrl, if_neg hm, List.map_cons]
      obtain ⟨hnd, hdisj⟩ := ih (rawUrl a :: seen)
      refine ⟨List.nodup_cons.mpr ⟨fun hmem => ?_, hnd⟩, ?_⟩
      · exact (hdisj _ hmem) (List.mem_cons_self _ _)
      · intro u hu
        rcases List.mem_cons.mp hu with rfl | hu'
        · exact hm
        · exact fun hus => (hdisj u hu') (List.mem_cons_of_mem _ hus)

/-- Helper: deduplication only keeps articles of the input. -/
theorem dedupByUrl_subset :
    ∀ (l : List RawArticle) (seen : List PyStr), ∀ a ∈ dedupByUrl seen l, a ∈ l := by
  intro l
  induction l with
  | nil => intro seen a ha; simp [dedupByUrl] at ha
  | cons b rest ih =>
    intro seen a ha
    by_cases hm : rawUrl b ∈ seen
    · simp only [dedupByUrl, if_pos hm] at ha
      exact List.mem_cons_of_mem _ (ih seen a ha)
    · simp only [dedupByUrl, if_neg hm] at ha
      rcases List.mem_cons.mp ha with rfl | ha'
      · exact List.mem_cons_self _ _
      · exact List.mem_cons_of_mem _ (ih _ a ha')

/-- C3: the deduplication pass of get_indian_financial_news keeps exactly
the first occurrence of each URL, and its output has at most as many
articles as there are distinct URL values among the raw hits. -/
theorem dedup_keeps_first_and_bounds (l : List RawArticle) :
    dedupByUrl [] l = keepFirstByUrl l ∧
    (dedupByUrl [] l).length ≤ ((l.map rawUrl).dedup).length := by
  constructor
  · rw [dedupByUrl_eq_keepFirst l []]
    congr 1
    have hp : (fun a : RawArticle => decide (rawUrl a ∉ ([] : List PyStr)))
        = fun _ => true := by
      funext a
      simp
    rw [hp, List.filter_true]
  · have hnd : ((dedupByUrl [] l).map rawUrl).Nodup := (dedupByUrl_urls_nodup l []).1
    have hsub : ∀ u ∈ (dedupByUrl [] l).map rawUrl, u ∈ l.map rawUrl := by
      intro u hu
      rw [List.mem_map] at hu
      obtain ⟨a, ha, rfl⟩ := hu
      exact List.mem_map_of_mem _ (dedupByUrl_subset l [] a ha)
    have hlen : (dedupByUrl [] l).length = ((dedupByUrl [] l).map rawUrl).length :=
      (List.length_map _ _).symm
    rw [hlen, ← List.toFinset_card_of_nodup hnd, ← List.card_toFinset]
    apply Finset.card_le_card
    intro u hu
    rw [List.mem_toFinset] at hu ⊢
    exact hsub u hu

end StockAI
